import Mathlib

/-!
Shallow embedding of the iteration-orchestration backend
(src/backend/server.py) of the Ralph-vs-traditional-agent repository,
together with proofs checking the natural-language specification
against it.  Machine integers are modelled as Nat/Int, Python floats
that only ever hold exact dyadic values (timestamps, the fractional
success counter, the 1.3 token factor) as Rat, and fallible code as
Except.  Definitions are translated from the Python source; doc
comments cite the source lines.
-/

namespace RalphArena

/-- Whether the first character list is a leading segment of the second
(Python `s.startswith(p)` on the underlying characters). -/
def leadsWith : List Char → List Char → Bool
  | [], _ => true
  | _ :: _, [] => false
  | a :: as, b :: bs => a == b && leadsWith as bs

/-- Whether the first character list occurs contiguously anywhere inside the
second (Python substring test `sub in s`). -/
def occursIn (needle : List Char) : List Char → Bool
  | [] => leadsWith needle []
  | c :: t => leadsWith needle (c :: t) || occursIn needle t

/-- Python `sub in s` for strings. -/
def strContains (s sub : String) : Bool := occursIn sub.toList s.toList

/-- Python `s.startswith(p)` for strings. -/
def strLeads (s p : String) : Bool := leadsWith p.toList s.toList

/-- Python `s[:n]` character slice. -/
def strTake (s : String) (n : Nat) : String := (s.toList.take n).asString

/-- Python `s.lower()` (the source only lowercases ASCII text). -/
def pyLower (s : String) : String := (s.toList.map Char.toLower).asString

/-- Python `s.strip()`: drop leading and trailing whitespace. -/
def pyStrip (s : String) : String :=
  ((s.toList.dropWhile Char.isWhitespace).reverse.dropWhile Char.isWhitespace).reverse.asString

/-- Splitting at every whitespace character, keeping empty pieces (the
callers discard short or empty pieces afterwards, so this agrees with
Python `s.split()` wherever it is used). -/
def pySplitWhite (s : String) : List String :=
  (List.splitOnP Char.isWhitespace s.toList).map List.asString

/-- Fuel-driven worker for `pySplit`: greedy left-to-right split of `l` at
every occurrence of the separator `sep` (nonempty at all call sites). -/
def splitSeqFuel (sep : List Char) : Nat → List Char → List Char → List (List Char)
  | 0, l, acc => [acc.reverse ++ l]
  | _ + 1, [], acc => [acc.reverse]
  | fuel + 1, c :: t, acc =>
      if leadsWith sep (c :: t) then
        acc.reverse :: splitSeqFuel sep fuel (List.drop (sep.length - 1) t) []
      else splitSeqFuel sep fuel t (c :: acc)

/-- Python `s.split(sep)` for a nonempty separator string. -/
def pySplit (s sep : String) : List String :=
  (splitSeqFuel sep.toList (s.toList.length + 1) s.toList []).map List.asString

/-- Python `sep.join(parts)`, used with the newline separator. -/
def joinWith (sep : String) (parts : List String) : String :=
  (List.intercalate sep.toList (parts.map String.toList)).asString

/-- `response[:n] + "..." if len(response) > n else response`
(server.py lines 429 and 647/830). -/
def truncate_text (s : String) (n : Nat) : String :=
  if s.length > n then strTake s n ++ "..." else s

/-- A chat message, Python dict `{"role": ..., "content": ...}`. -/
structure Message where
  role : String
  content : String
deriving DecidableEq

/-- `Task` model, server.py lines 177-184. -/
structure Task where
  id : String
  title : String
  description : String
  acceptance_criteria : List String
  difficulty : String
  expected_iterations : List (String × Nat)
  prompt_template : String
deriving DecidableEq

/-- `Iteration` model, server.py lines 186-194. -/
structure Iteration where
  iteration_number : Nat
  context_size : Nat
  tokens_used : Nat
  time_taken_ms : Nat
  status : String
  code_snippet : String
  message : String
  timestamp : String
deriving DecidableEq

/-- `AgentState` model, server.py lines 196-204.  `success_count` is declared
`int` in the pydantic model but the handlers mutate the plain dict with
`+= 0.5`, so the live value is a Python float holding exact multiples of
one half; it is therefore embedded as `Rat`. -/
structure AgentState where
  agent_type : String
  status : String
  iterations : List Iteration := []
  total_tokens : Nat := 0
  success_count : Rat := 0
  failure_count : Nat := 0
  current_context_size : Nat := 0
  total_time_ms : Nat := 0
deriving DecidableEq

/-- `Battle` model, server.py lines 206-214 (id and created_at are supplied
by the caller in the embedding in place of uuid4/utcnow). -/
structure Battle where
  id : String
  task_id : String
  traditional_agent : AgentState
  ralph_agent : AgentState
  status : String := "idle"
  winner : Option String := none
  created_at : String := ""
deriving DecidableEq

/-- One entry of `active_battles` (server.py lines 466-470): the battle
snapshot plus the ephemeral per-battle working state. -/
structure BattleData where
  battle : Battle
  traditional_history : List (String × String) := []
  ralph_state_file : String := ""
deriving DecidableEq

/-- The task `"rest-api"` of the static catalog, server.py lines 222-239. -/
def task_rest_api : Task :=
  { id := "rest-api"
    title := "Build a REST API"
    description := "Create a Node.js REST API with 3 endpoints: GET /users, POST /users, DELETE /users/:id"
    acceptance_criteria :=
      ["All 3 endpoints work correctly",
       "Proper HTTP status codes",
       "Basic validation implemented"]
    difficulty := "medium"
    expected_iterations := [("traditional", 8), ("ralph", 4)]
    prompt_template := "Create a Node.js Express REST API with the following endpoints:\n- GET /users - returns array of users\n- POST /users - creates a new user (accepts name, email)\n- DELETE /users/:id - deletes user by id\n\nInclude proper error handling and validation. Use an in-memory array for storage." }

/-- Whether one acceptance criterion counts as met, server.py lines 404-407:
split the lowercased criterion into whitespace words, and look for any word
longer than 3 characters inside the lowercased response. -/
def criterion_met (response_lower criterion : String) : Bool :=
  ((pySplitWhite (pyLower criterion)).filter (fun kw => kw.length > 3)).any
    (fun kw => strContains response_lower kw)

/-- `criteria_met` accumulator of `evaluate_response`, server.py lines 403-407. -/
def met_count (response : String) (task : Task) : Nat :=
  (task.acceptance_criteria.filter (fun c => criterion_met (pyLower response) c)).length

/-- `has_code` test of `evaluate_response`, server.py line 409. -/
def has_code_flag (response : String) : Bool :=
  strContains response "```" || strContains response "def " ||
    strContains response "function " || strContains response "const "

/-- `evaluate_response`, server.py lines 398-416.  The comparisons
`criteria_met >= len(criteria) * 0.7` and `... * 0.4` are embedded as the
exact rational comparisons with the denominator cleared
(`10 * criteria_met ≥ 7 * n`, `10 * criteria_met ≥ 4 * n`); for every
catalog task (3 or 4 acceptance criteria) the Python float comparison
agrees with the exact one.  The rational reading is proved equivalent to
the met-fraction formulation in the C7 theorem below. -/
def evaluate_response (response : String) (task : Task) : String :=
  let criteria_met := met_count response task
  let has_code := has_code_flag response
  let n := task.acceptance_criteria.length
  if 10 * criteria_met ≥ 7 * n ∧ has_code = true then "success"
  else if 10 * criteria_met ≥ 4 * n ∧ has_code = true then "partial"
  else "failure"

/-- The code-opening tokens recognised by the snippet extractor,
server.py line 425. -/
def code_openers : List String := ["def", "function", "const", "import", "from"]

/-- `extract_code_snippet`, server.py lines 418-429. -/
def extract_code_snippet (response : String) : String :=
  if strContains response "```" = true then
    let parts := pySplit response "```"
    if parts.length ≥ 2 then
      let code := parts.getD 1 ""
      let lines := pySplit code "\n"
      let lines1 :=
        if lines ≠ [] ∧ (code_openers.any (fun p => strLeads (pyStrip (lines.headD "")) p)) = false
        then lines.tail else lines
      joinWith "\n" (lines1.take 20)
    else truncate_text response 300
  else truncate_text response 300

/-- The `battle[f"{agent_type}_agent"]` access used throughout the handlers
(server.py lines 547-548, 764-765): any agent type other than
`"traditional"` selects the ralph side (the handlers admit only the two
valid names). -/
def agentOf (bd : BattleData) (agent_type : String) : AgentState :=
  if agent_type = "traditional" then bd.battle.traditional_agent else bd.battle.ralph_agent

/-- The `other_agent` lookup of the winner check (server.py lines 685, 868). -/
def otherAgent (bd : BattleData) (agent_type : String) : AgentState :=
  if agent_type = "traditional" then bd.battle.ralph_agent else bd.battle.traditional_agent

/-- The fix-and-improve user turn appended per prior traditional attempt,
server.py lines 579/780. -/
def statusFixMsg (status : String) : String :=
  "The previous attempt had issues. Status: " ++ status ++ ". Please fix and improve."

/-- The single ralph user turn for iterations after the first,
server.py lines 590-595/793-798. -/
def ralphPrompt (template state_file : String) : String :=
  "TASK: " ++ template ++ "\n\nCURRENT STATE (from state file):\n" ++ state_file ++
    "\n\nContinue from where you left off. Build on the working parts, fix what\x27s broken."

/-- Message assembly for one iteration, server.py lines 570-600/770-803
(identical in the streaming and blocking handlers). -/
def buildMessages (task : Task) (bd : BattleData) (agent_type : String) : List Message :=
  let agent_state := agentOf bd agent_type
  let current_iteration := agent_state.iterations.length + 1
  if agent_type = "traditional" then
    if current_iteration = 1 then [⟨"user", task.prompt_template⟩]
    else
      ⟨"user", task.prompt_template⟩ ::
        bd.traditional_history.flatMap
          (fun prev => [⟨"assistant", prev.1⟩, ⟨"user", statusFixMsg prev.2⟩])
  else
    if current_iteration = 1 then [⟨"user", task.prompt_template⟩]
    else [⟨"user", ralphPrompt task.prompt_template bd.ralph_state_file⟩]

/-- The full overwrite of the ralph state file, server.py lines 673-678/856-861. -/
def ralphStateText (current_iteration : Nat) (status code_snippet : String) : String :=
  "Iteration " ++ toString current_iteration ++ " completed.\nStatus: " ++ status ++
    "\nWorking code so far:\n" ++ code_snippet ++ "\n\nNotes: " ++
    (if status = "success" then "Task completed successfully"
     else "Continue improving the implementation")

/-- Result of one state-updating iteration: the new in-memory battle data and
the `Iteration` record that was appended. -/
structure StepResult where
  bd : BattleData
  iteration : Iteration
deriving DecidableEq

/-- The shared state-update block of the two handlers once the full response
text is available: evaluation, snippet/context-size computation, the
`Iteration` record, the agent-state update, the ephemeral history / state-file
update, and the winner / battle-status recomputation
(server.py lines 621-688 in `generate_stream`, 809-871 in `iterate_agent`;
the two blocks are verbatim duplicates apart from the token source, which is
passed in as `total_tokens`). -/
def applyIteration (task : Task) (bd : BattleData) (agent_type content : String)
    (total_tokens time_taken_ms : Nat) (timestamp : String) : StepResult :=
  let agent_state := agentOf bd agent_type
  let current_iteration := agent_state.iterations.length + 1
  let messages := buildMessages task bd agent_type
  let status := evaluate_response content task
  let code_snippet := extract_code_snippet content
  let context_size :=
    if agent_type = "traditional" then
      (messages.map (fun m => m.content.length)).sum + content.length
    else
      (messages.headD ⟨"", ""⟩).content.length + content.length
  let iteration : Iteration :=
    { iteration_number := current_iteration
      context_size := context_size
      tokens_used := total_tokens
      time_taken_ms := time_taken_ms
      status := status
      code_snippet := code_snippet
      message := truncate_text content 500
      timestamp := timestamp }
  let as1 : AgentState :=
    { agent_state with
        iterations := agent_state.iterations ++ [iteration]
        total_tokens := agent_state.total_tokens + total_tokens
        total_time_ms := agent_state.total_time_ms + time_taken_ms
        current_context_size := context_size
        status := "running" }
  let as2 : AgentState :=
    if status = "success" then
      { as1 with success_count := as1.success_count + 1, status := "completed" }
    else if status = "failure" then
      { as1 with failure_count := as1.failure_count + 1 }
    else
      { as1 with success_count := as1.success_count + (1 / 2 : Rat) }
  let bd1 : BattleData :=
    if agent_type = "traditional" then
      { bd with traditional_history := bd.traditional_history ++ [(content, status)] }
    else
      { bd with ralph_state_file := ralphStateText current_iteration status code_snippet }
  let battle1 : Battle :=
    if agent_type = "traditional" then { bd1.battle with traditional_agent := as2 }
    else { bd1.battle with ralph_agent := as2 }
  let other_status :=
    if agent_type = "traditional" then battle1.ralph_agent.status
    else battle1.traditional_agent.status
  let battle2 : Battle :=
    if as2.status = "completed" then
      let battle1a :=
        if other_status ≠ "completed" then { battle1 with winner := some agent_type } else battle1
      { battle1a with status := if other_status = "completed" then "completed" else "running" }
    else battle1
  ⟨{ bd1 with battle := battle2 }, iteration⟩

/-- A fresh `AgentState` such as `create_battle` / `reset_battle` build
(server.py lines 461-462, 925-926). -/
def freshAgent (agent_type : String) : AgentState :=
  { agent_type := agent_type, status := "idle" }

/-- The `active_battles` entry written by `create_battle`,
server.py lines 459-470. -/
def freshBattleData (battle_id task_id : String) : BattleData :=
  { battle :=
      { id := battle_id
        task_id := task_id
        traditional_agent := freshAgent "traditional"
        ralph_agent := freshAgent "ralph"
        status := "idle"
        winner := none }
    traditional_history := []
    ralph_state_file := "" }

/-- `reset_battle`, server.py lines 918-946: both agents fresh and idle,
battle idle, winner cleared, ephemeral history and state file discarded. -/
def reset_battle (bd : BattleData) : BattleData :=
  { battle :=
      { bd.battle with
          traditional_agent := freshAgent "traditional"
          ralph_agent := freshAgent "ralph"
          status := "idle"
          winner := none }
    traditional_history := []
    ralph_state_file := "" }

/-- One iterate call against a battle, as seen by the state machine: the
targeted agent, the completion outcome (`Except.error` models an upstream
provider failure raised inside `call_claude`), and the measured duration and
timestamp. -/
structure StepCall where
  agent_type : String
  completion : Except String (String × Nat)
  time_taken_ms : Nat
  timestamp : String

/-- State effect of one iterate call: an upstream failure aborts before any
mutation (server.py lines 805-807: the exception propagates before line 809),
a successful completion runs the shared update block. -/
def iterStep (task : Task) (bd : BattleData) (s : StepCall) : BattleData :=
  match s.completion with
  | .error _ => bd
  | .ok (content, total_tokens) =>
      (applyIteration task bd s.agent_type content total_tokens s.time_taken_ms s.timestamp).bd

/-- Folding a sequence of iterate calls over the in-memory state. -/
def runSteps (task : Task) (bd : BattleData) (steps : List StepCall) : BattleData :=
  steps.foldl (iterStep task) bd

/-- No call of the sequence targets an agent that is already completed when
the call happens (the restriction under which completed/winner are stable). -/
def noCompletedTarget (task : Task) : BattleData → List StepCall → Prop
  | _, [] => True
  | bd, s :: ss =>
      (agentOf bd s.agent_type).status ≠ "completed" ∧
        noCompletedTarget task (iterStep task bd s) ss

/-- Result value of `check_rate_limit` together with the client bucket after
the call (the Python function mutates `rate_limit_store[ip]` in place;
`bucket` is the value left there). -/
structure RateCheck where
  allowed : Bool
  remaining : Nat
  reset_time : Int
  bucket : List Rat
deriving DecidableEq

/-- `check_rate_limit`, server.py lines 110-143, for one client bucket.
Timestamps are `time.time()` floats, embedded as `Rat`.  Python
`int(3600 - (current_time - oldest_request))` truncates toward zero; the
truncated value is strictly positive here because the oldest kept timestamp
is strictly newer than `now - 3600`, so truncation coincides with the floor.
`min(...)` over the nonempty kept list is a left fold of `min`. -/
def check_rate_limit (enabled : Bool) (limit : Nat) (now : Rat) (bucket : List Rat) :
    RateCheck :=
  if enabled = false then ⟨true, limit, 3600, bucket⟩
  else
    let hour_ago := now - 3600
    let kept := bucket.filter (fun t => hour_ago < t)
    let request_count := kept.length
    if request_count ≥ limit then
      let reset_time : Int :=
        match kept with
        | [] => 3600
        | t :: ts => ⌊(3600 : Rat) - (now - ts.foldl min t)⌋
      ⟨false, 0, reset_time, kept⟩
    else
      ⟨true, limit - request_count - 1, 3600, kept ++ [now]⟩

/-- The metadata of the 429 raised by `rate_limit_dependency`,
server.py lines 150-161: the Retry-After value and the reset header
(`int(time.time()) + reset_time`). -/
structure RateRejected where
  retry_after : Int
  reset_header : Int
deriving DecidableEq

/-- The rate-limit headers returned for admitted calls,
server.py lines 169-173. -/
structure RateHeaders where
  limit : Nat
  remaining : Nat
  reset : Int
deriving DecidableEq

/-- `rate_limit_dependency`, server.py lines 145-173, for one client bucket.
The second `time.time()` read used for the reset header is identified with
`now`. -/
def rate_limit_dependency (enabled : Bool) (limit : Nat) (now : Rat) (bucket : List Rat) :
    List Rat × Except RateRejected RateHeaders :=
  let rc := check_rate_limit enabled limit now bucket
  if rc.allowed = false then
    (rc.bucket, .error ⟨rc.reset_time, ⌊now⌋ + rc.reset_time⟩)
  else
    (rc.bucket, .ok ⟨limit, rc.remaining, ⌊now⌋ + rc.reset_time⟩)

/-- The failure modes of the iterate handlers, server.py lines 746-762
(404 unknown battle, 400 invalid agent, 404 unknown task), line 396
(500 upstream completion failure), the database update (persistence
failure), and the `AttributeError` of line 888 (see `iterate_agent`). -/
inductive HandlerError where
  | notFound
  | invalidAgent
  | taskNotFound
  | upstream (msg : String)
  | persistence (msg : String)
  | rateLimited (e : RateRejected)
  | attributeError
deriving DecidableEq

/-- The JSON body returned by a (hypothetically reached) successful blocking
iterate, server.py lines 892-897. -/
structure IterateResult where
  iteration : Iteration
  agent_state : AgentState
  battle_status : String
  winner : Option String
deriving DecidableEq

/-- What the Python name `response` is bound to in `iterate_agent`: the
FastAPI `Response` parameter (line 742) until line 807 rebinds it to the
dict returned by `call_claude`. -/
inductive PyResponseBinding where
  | fastapiResponse (headers : List (String × String))
  | completionDict (content : String) (total_tokens : Nat)

/-- `response.headers[name] = value`: attribute access succeeds on the
FastAPI response object and raises `AttributeError` on a plain dict. -/
def setHeader (r : PyResponseBinding) (name value : String) :
    Except Unit PyResponseBinding :=
  match r with
  | .fastapiResponse hs => .ok (.fastapiResponse (hs ++ [(name, value)]))
  | .completionDict _ _ => .error ()

/-- Lookup in the `active_battles` dict, embedded as an association list. -/
def lookupBattle (store : List (String × BattleData)) (battle_id : String) :
    Option BattleData :=
  (store.find? (fun p => p.1 = battle_id)).map (fun p => p.2)

/-- In-place mutation of one `active_battles` entry. -/
def storeSet (store : List (String × BattleData)) (battle_id : String) (bd : BattleData) :
    List (String × BattleData) :=
  store.map (fun p => if p.1 = battle_id then (battle_id, bd) else p)

/-- The blocking handler `iterate_agent`, server.py lines 737-897, after the
rate-limit dependency has admitted the call.  `completion` is the outcome of
`call_claude` (content and provider-reported total tokens, or an upstream
error), `persist` the outcome of the database UPDATE.  Line 807 rebinds the
local name `response` — previously the FastAPI `Response` parameter — to the
completion dict, so the header-setting statements of lines 888-890 operate on
a plain dict and raise `AttributeError`; the in-memory mutation and the
database write have already happened at that point.  The first component of
the result is the `active_battles` store after the call. -/
def iterate_agent (store : List (String × BattleData)) (tasks : List Task)
    (battle_id agent_type : String) (completion : Except String (String × Nat))
    (persist : Except String Unit) (time_taken_ms : Nat) (timestamp : String) :
    List (String × BattleData) × Except HandlerError IterateResult :=
  match lookupBattle store battle_id with
  | none => (store, .error .notFound)
  | some bd =>
    if agent_type ∈ (["traditional", "ralph"] : List String) then
      match tasks.find? (fun t => t.id = bd.battle.task_id) with
      | none => (store, .error .taskNotFound)
      | some task =>
        match completion with
        | .error e => (store, .error (.upstream e))
        | .ok (content, total_tokens) =>
          let r := applyIteration task bd agent_type content total_tokens time_taken_ms timestamp
          let store1 := storeSet store battle_id r.bd
          match persist with
          | .error e => (store1, .error (.persistence e))
          | .ok _ =>
            match setHeader (.completionDict content total_tokens) "X-RateLimit-Limit" "" with
            | .error _ => (store1, .error .attributeError)
            | .ok _ =>
              (store1, .ok ⟨r.iteration, agentOf r.bd agent_type,
                            r.bd.battle.status, r.bd.battle.winner⟩)
    else (store, .error .invalidAgent)

/-- One data frame of the SSE protocol of `generate_stream`,
server.py lines 605, 619, 705, 709.  Keep-alive frames are SSE comments, not
data events, and are outside the event protocol. -/
inductive StreamEvent where
  | start (iteration : Nat) (agent : String)
  | chunk (content : String)
  | complete (iteration : Iteration) (agent_state : AgentState)
      (battle_status : String) (winner : Option String)
  | error (msg : String)
deriving DecidableEq

/-- Outcome of the streaming completion call: the fragments received before
the generator either throws or finishes. -/
inductive StreamRun where
  | throws (chunks : List String) (msg : String)
  | finishes (chunks : List String)
deriving DecidableEq

/-- Python `len(s.split())`: whitespace-delimited word count. -/
def pyWordCount (s : String) : Nat :=
  ((pySplitWhite s).filter (fun w => w ≠ "")).length

/-- The token estimate of the streaming path, server.py lines 634-637:
`int(sum(len(m.split()) for m in messages) * 1.3 + len(full.split()) * 1.3)`
(truncation = floor on these nonnegative values). -/
def estimateTokens (messages : List Message) (full_response : String) : Nat :=
  (⌊((messages.map (fun m => pyWordCount m.content)).sum : Rat) * 1.3 +
      (pyWordCount full_response : Rat) * 1.3⌋).toNat

/-- The SSE generator `generate_stream`, server.py lines 551-719: a `start`
event, one `chunk` event per fragment, then either `complete` (after the
shared update block and a successful database write) or a single `error`
event (generation throw, or database failure after the in-memory mutation).
The returned `BattleData` is the in-memory state when the stream ends. -/
def generate_stream (task : Task) (bd : BattleData) (agent_type : String)
    (run : StreamRun) (persist : Except String Unit)
    (time_taken_ms : Nat) (timestamp : String) : List StreamEvent × BattleData :=
  let current_iteration := (agentOf bd agent_type).iterations.length + 1
  let messages := buildMessages task bd agent_type
  match run with
  | .throws chunks msg =>
      (StreamEvent.start current_iteration agent_type ::
        (chunks.map StreamEvent.chunk ++ [StreamEvent.error msg]), bd)
  | .finishes chunks =>
      let full_response := String.join chunks
      let total_tokens := estimateTokens messages full_response
      let r := applyIteration task bd agent_type full_response total_tokens time_taken_ms timestamp
      match persist with
      | .error e =>
          (StreamEvent.start current_iteration agent_type ::
            (chunks.map StreamEvent.chunk ++ [StreamEvent.error e]), r.bd)
      | .ok _ =>
          (StreamEvent.start current_iteration agent_type ::
            (chunks.map StreamEvent.chunk ++
              [StreamEvent.complete r.iteration (agentOf r.bd agent_type)
                r.bd.battle.status r.bd.battle.winner]), r.bd)

/-- The streaming handler `iterate_agent_stream`, server.py lines 521-735,
after the rate-limit dependency: pre-stream validation (404/400/404) and then
the event stream. -/
def iterate_agent_stream (store : List (String × BattleData)) (tasks : List Task)
    (battle_id agent_type : String) (run : StreamRun) (persist : Except String Unit)
    (time_taken_ms : Nat) (timestamp : String) :
    List (String × BattleData) × Except HandlerError (List StreamEvent) :=
  match lookupBattle store battle_id with
  | none => (store, .error .notFound)
  | some bd =>
    if agent_type ∈ (["traditional", "ralph"] : List String) then
      match tasks.find? (fun t => t.id = bd.battle.task_id) with
      | none => (store, .error .taskNotFound)
      | some task =>
        let r := generate_stream task bd agent_type run persist time_taken_ms timestamp
        (storeSet store battle_id r.2, .ok r.1)
    else (store, .error .invalidAgent)

/-- The guarded blocking endpoint: FastAPI runs `rate_limit_dependency`
(which records the admission timestamp) before the handler body,
server.py lines 737-743. -/
def iterate_endpoint (enabled : Bool) (limit : Nat) (now : Rat) (bucket : List Rat)
    (store : List (String × BattleData)) (tasks : List Task)
    (battle_id agent_type : String) (completion : Except String (String × Nat))
    (persist : Except String Unit) (time_taken_ms : Nat) (timestamp : String) :
    List Rat × List (String × BattleData) × Except HandlerError IterateResult :=
  match rate_limit_dependency enabled limit now bucket with
  | (bucket1, .error e) => (bucket1, store, .error (.rateLimited e))
  | (bucket1, .ok _) =>
      let r := iterate_agent store tasks battle_id agent_type completion persist
        time_taken_ms timestamp
      (bucket1, r.1, r.2)

/-- The guarded streaming endpoint, server.py lines 521-527. -/
def iterate_stream_endpoint (enabled : Bool) (limit : Nat) (now : Rat) (bucket : List Rat)
    (store : List (String × BattleData)) (tasks : List Task)
    (battle_id agent_type : String) (run : StreamRun) (persist : Except String Unit)
    (time_taken_ms : Nat) (timestamp : String) :
    List Rat × List (String × BattleData) × Except HandlerError (List StreamEvent) :=
  match rate_limit_dependency enabled limit now bucket with
  | (bucket1, .error e) => (bucket1, store, .error (.rateLimited e))
  | (bucket1, .ok _) =>
      let r := iterate_agent_stream store tasks battle_id agent_type run persist
        time_taken_ms timestamp
      (bucket1, r.1, r.2)

/-- The evaluator can only produce the three statuses of the data model. -/
lemma eval_mem (r : String) (t : Task) :
    evaluate_response r t = "success" ∨ evaluate_response r t = "partial" ∨
      evaluate_response r t = "failure" := by
  by_cases h1 : 10 * met_count r t ≥ 7 * t.acceptance_criteria.length ∧ has_code_flag r = true
  · left; simp [evaluate_response, h1]
  · by_cases h2 : 10 * met_count r t ≥ 4 * t.acceptance_criteria.length ∧ has_code_flag r = true
    · right; left
      have h1a : ¬ 10 * met_count r t ≥ 7 * t.acceptance_criteria.length :=
        fun hx => h1 ⟨hx, h2.2⟩
      simp [evaluate_response, h1a, h2]
    · right; right; simp [evaluate_response, h1, h2]

/-- An iterate call that does not target the traditional side leaves the
traditional `AgentState` untouched. -/
lemma apply_other_trad (task : Task) (bd : BattleData) (a c : String)
    (tok tms : Nat) (ts : String) (h : a ≠ "traditional") :
    (applyIteration task bd a c tok tms ts).bd.battle.traditional_agent
      = bd.battle.traditional_agent := by
  simp only [applyIteration, if_neg h]
  split_ifs <;> rfl

/-- A traditional iterate call leaves the ralph `AgentState` untouched. -/
lemma apply_other_ralph (task : Task) (bd : BattleData) (c : String)
    (tok tms : Nat) (ts : String) :
    (applyIteration task bd "traditional" c tok tms ts).bd.battle.ralph_agent
      = bd.battle.ralph_agent := by
  simp only [applyIteration, if_pos rfl]
  split_ifs <;> rfl

/-- The targeted agent gets exactly the produced `Iteration` appended. -/
lemma apply_target_iterations (task : Task) (bd : BattleData) (a c : String)
    (tok tms : Nat) (ts : String) :
    (agentOf (applyIteration task bd a c tok tms ts).bd a).iterations
      = (agentOf bd a).iterations ++ [(applyIteration task bd a c tok tms ts).iteration] := by
  by_cases h : a = "traditional" <;>
    rcases eval_mem c task with hs | hs | hs <;>
      simp [applyIteration, agentOf, h, hs] <;> split_ifs <;> rfl

/-- The targeted agent finishes in status `completed` exactly when the
iteration evaluated to `success`, and in status `running` otherwise
(server.py lines 839-847: the status is first reset to `running`). -/
lemma apply_target_status (task : Task) (bd : BattleData) (a c : String)
    (tok tms : Nat) (ts : String) :
    (agentOf (applyIteration task bd a c tok tms ts).bd a).status
      = (if evaluate_response c task = "success" then "completed" else "running") := by
  by_cases h : a = "traditional" <;>
    rcases eval_mem c task with hs | hs | hs <;>
      simp [applyIteration, agentOf, h, hs] <;> split_ifs <;> rfl

/-- The winner after an iterate call: reassigned to the targeted agent
exactly when that iteration succeeded and the other agent is not completed,
otherwise unchanged (server.py lines 867-871 — there is no check that the
winner is still unset). -/
lemma apply_winner (task : Task) (bd : BattleData) (a c : String)
    (tok tms : Nat) (ts : String) :
    (applyIteration task bd a c tok tms ts).bd.battle.winner
      = (if evaluate_response c task = "success" ∧ (otherAgent bd a).status ≠ "completed"
         then some a else bd.battle.winner) := by
  by_cases h : a = "traditional" <;>
    rcases eval_mem c task with hs | hs | hs <;>
      simp [applyIteration, agentOf, otherAgent, h, hs] <;> split_ifs <;> simp_all

/-- Effect of one iterate call on the fractional success counter
(server.py lines 841-847). -/
lemma apply_target_success_count (task : Task) (bd : BattleData) (a c : String)
    (tok tms : Nat) (ts : String) :
    (agentOf (applyIteration task bd a c tok tms ts).bd a).success_count
      = (agentOf bd a).success_count +
          (if evaluate_response c task = "success" then 1
           else if evaluate_response c task = "failure" then 0
           else (1 / 2 : Rat)) := by
  by_cases h : a = "traditional" <;>
    rcases eval_mem c task with hs | hs | hs <;>
      simp [applyIteration, agentOf, h, hs] <;> split_ifs <;> simp_all

/-- The appended record carries `iteration_number = previous length + 1`
(server.py lines 766, 824). -/
lemma apply_iteration_number (task : Task) (bd : BattleData) (a c : String)
    (tok tms : Nat) (ts : String) :
    (applyIteration task bd a c tok tms ts).iteration.iteration_number
      = (agentOf bd a).iterations.length + 1 := by
  by_cases h : a = "traditional" <;> simp [applyIteration, agentOf, h]

/-- The appended record carries the evaluator status. -/
lemma apply_iteration_status (task : Task) (bd : BattleData) (a c : String)
    (tok tms : Nat) (ts : String) :
    (applyIteration task bd a c tok tms ts).iteration.status
      = evaluate_response c task := by
  by_cases h : a = "traditional" <;> simp [applyIteration, agentOf, h]

lemma agentOf_trad (bd : BattleData) : agentOf bd "traditional" = bd.battle.traditional_agent := by
  simp [agentOf]

lemma agentOf_ne_trad (bd : BattleData) (a : String) (h : a ≠ "traditional") :
    agentOf bd a = bd.battle.ralph_agent := by
  simp [agentOf, h]

lemma otherAgent_trad (bd : BattleData) : otherAgent bd "traditional" = bd.battle.ralph_agent := by
  simp [otherAgent]

lemma otherAgent_ne_trad (bd : BattleData) (a : String) (h : a ≠ "traditional") :
    otherAgent bd a = bd.battle.traditional_agent := by
  simp [otherAgent, h]

/-- An iterate call whose completion failed upstream leaves the state
untouched. -/
lemma iterStep_error (task : Task) (bd : BattleData) (a : String) (e : String)
    (tms : Nat) (ts : String) :
    iterStep task bd ⟨a, .error e, tms, ts⟩ = bd := rfl

/-- An iterate call never clears the winner (it can only overwrite it with
`some agent_type` or leave it alone). -/
lemma iterStep_winner_ne_none (task : Task) (bd : BattleData) (s : StepCall)
    (h : bd.battle.winner ≠ none) :
    (iterStep task bd s).battle.winner ≠ none := by
  rcases s with ⟨a, comp, tms, ts⟩
  cases comp with
  | error e => exact h
  | ok p =>
      obtain ⟨content, tok⟩ := p
      show ((applyIteration task bd a content tok tms ts).bd.battle.winner ≠ none)
      rw [apply_winner]
      split_ifs <;> simp_all

/-- One iterate call that does not target an agent currently completed
preserves a set winner together with the fact that the winning agent is
completed. -/
lemma iterStep_winner_preserved (task : Task) (bd : BattleData) (s : StepCall) (w : String)
    (hv : w = "traditional" ∨ w = "ralph")
    (hw : bd.battle.winner = some w)
    (hc : (agentOf bd w).status = "completed")
    (ht : (agentOf bd s.agent_type).status ≠ "completed") :
    (iterStep task bd s).battle.winner = some w ∧
      (agentOf (iterStep task bd s) w).status = "completed" := by
  rcases s with ⟨a, comp, tms, ts⟩
  cases comp with
  | error e => exact ⟨hw, hc⟩
  | ok p =>
      obtain ⟨content, tok⟩ := p
      have hstep : iterStep task bd ⟨a, .ok (content, tok), tms, ts⟩
          = (applyIteration task bd a content tok tms ts).bd := rfl
      rw [hstep]
      rcases hv with hv | hv
      · subst hv
        have ha : a ≠ "traditional" := by
          intro h; subst h; exact ht hc
        rw [agentOf_trad] at hc
        constructor
        · rw [apply_winner, otherAgent_ne_trad bd a ha]
          simp [hc, hw]
        · rw [agentOf_trad, apply_other_trad task bd a content tok tms ts ha]
          exact hc
      · subst hv
        by_cases ha : a = "traditional"
        · subst ha
          rw [agentOf_ne_trad bd "ralph" (by decide)] at hc
          constructor
          · rw [apply_winner, otherAgent_trad]
            simp [hc, hw]
          · rw [agentOf_ne_trad _ "ralph" (by decide), apply_other_ralph]
            exact hc
        · exfalso
          apply ht
          rw [agentOf_ne_trad bd a ha]
          rw [agentOf_ne_trad bd "ralph" (by decide)] at hc
          exact hc

/-- A set winner whose agent is completed survives any sequence of iterate
calls that never targets an already-completed agent. -/
lemma runSteps_winner_preserved (task : Task) (steps : List StepCall) :
    ∀ (bd : BattleData) (w : String),
      (w = "traditional" ∨ w = "ralph") →
      bd.battle.winner = some w →
      (agentOf bd w).status = "completed" →
      noCompletedTarget task bd steps →
      (runSteps task bd steps).battle.winner = some w := by
  induction steps with
  | nil => intro bd w _ hw _ _; exact hw
  | cons s ss ih =>
      intro bd w hv hw hc hs
      obtain ⟨h1, h2⟩ := hs
      obtain ⟨hw1, hc1⟩ := iterStep_winner_preserved task bd s w hv hw hc h1
      exact ih (iterStep task bd s) w hv hw1 hc1 h2

/-- Number of recorded iterations with status `success`. -/
def succCount (l : List Iteration) : Nat :=
  (l.filter (fun i => i.status = "success")).length

/-- Number of recorded iterations with status `partial`. -/
def partCount (l : List Iteration) : Nat :=
  (l.filter (fun i => i.status = "partial")).length

/-- The fractional-accumulator invariant of one agent:
`success_count = #success + #partial / 2`, exactly. -/
def fracOk (st : AgentState) : Prop :=
  st.success_count = (succCount st.iterations : Rat) + (partCount st.iterations : Rat) / 2

/-- Appending one evaluated iteration preserves the fractional invariant. -/
lemma fracOk_append (old new : AgentState) (it : Iteration)
    (hit : new.iterations = old.iterations ++ [it])
    (hsc : new.success_count = old.success_count +
      (if it.status = "success" then 1
       else if it.status = "failure" then 0 else (1 / 2 : Rat)))
    (hmem : it.status = "success" ∨ it.status = "partial" ∨ it.status = "failure")
    (hold : fracOk old) :
    fracOk new := by
  unfold fracOk at *
  rw [hit, hsc, hold]
  unfold succCount partCount
  rcases hmem with h | h | h <;>
    simp [List.filter_append, h] <;> ring

/-- One iterate call preserves the fractional invariant on both sides. -/
lemma iterStep_fracOk (task : Task) (bd : BattleData) (s : StepCall)
    (ht : fracOk bd.battle.traditional_agent) (hr : fracOk bd.battle.ralph_agent) :
    fracOk (iterStep task bd s).battle.traditional_agent ∧
      fracOk (iterStep task bd s).battle.ralph_agent := by
  rcases s with ⟨a, comp, tms, ts⟩
  cases comp with
  | error e => exact ⟨ht, hr⟩
  | ok p =>
      obtain ⟨content, tok⟩ := p
      have hstep : iterStep task bd ⟨a, .ok (content, tok), tms, ts⟩
          = (applyIteration task bd a content tok tms ts).bd := rfl
      have htarget : fracOk (agentOf (applyIteration task bd a content tok tms ts).bd a) := by
        apply fracOk_append (agentOf bd a) _
          (applyIteration task bd a content tok tms ts).iteration
          (apply_target_iterations task bd a content tok tms ts)
          _ _ _
        · rw [apply_target_success_count, apply_iteration_status]
        · rw [apply_iteration_status]; exact eval_mem content task
        · by_cases ha : a = "traditional"
          · subst ha; rw [agentOf_trad]; exact ht
          · rw [agentOf_ne_trad bd a ha]; exact hr
      rw [hstep]
      by_cases ha : a = "traditional"
      · subst ha
        refine ⟨?_, ?_⟩
        · rw [← agentOf_trad]; exact htarget
        · rw [apply_other_ralph]; exact hr
      · refine ⟨?_, ?_⟩
        · rw [apply_other_trad task bd a content tok tms ts ha]; exact ht
        · rw [← agentOf_ne_trad _ a ha]; exact htarget

/-- The fractional invariant holds on both sides after any run from any
state satisfying it. -/
lemma runSteps_fracOk (task : Task) (steps : List StepCall) :
    ∀ bd : BattleData,
      fracOk bd.battle.traditional_agent → fracOk bd.battle.ralph_agent →
      fracOk (runSteps task bd steps).battle.traditional_agent ∧
        fracOk (runSteps task bd steps).battle.ralph_agent := by
  induction steps with
  | nil => intro bd ht hr; exact ⟨ht, hr⟩
  | cons s ss ih =>
      intro bd ht hr
      obtain ⟨ht1, hr1⟩ := iterStep_fracOk task bd s ht hr
      exact ih (iterStep task bd s) ht1 hr1

/-- The iteration-number invariant of one agent: the recorded numbers are
exactly the contiguous sequence `1..k` where `k` is the list length. -/
def numsOk (l : List Iteration) : Prop :=
  l.map (fun i => i.iteration_number) = List.range' 1 l.length

/-- Appending one iteration numbered `length + 1` preserves contiguity. -/
lemma numsOk_append (l : List Iteration) (it : Iteration)
    (hn : it.iteration_number = l.length + 1) (h : numsOk l) :
    numsOk (l ++ [it]) := by
  unfold numsOk at *
  rw [List.map_append, h, List.length_append]
  simp [hn, List.range'_concat, Nat.add_comm]

/-- One iterate call preserves the iteration-number invariant on both sides. -/
lemma iterStep_numsOk (task : Task) (bd : BattleData) (s : StepCall)
    (ht : numsOk bd.battle.traditional_agent.iterations)
    (hr : numsOk bd.battle.ralph_agent.iterations) :
    numsOk (iterStep task bd s).battle.traditional_agent.iterations ∧
      numsOk (iterStep task bd s).battle.ralph_agent.iterations := by
  rcases s with ⟨a, comp, tms, ts⟩
  cases comp with
  | error e => exact ⟨ht, hr⟩
  | ok p =>
      obtain ⟨content, tok⟩ := p
      have hstep : iterStep task bd ⟨a, .ok (content, tok), tms, ts⟩
          = (applyIteration task bd a content tok tms ts).bd := rfl
      have htarget : numsOk (agentOf (applyIteration task bd a content tok tms ts).bd a).iterations := by
        rw [apply_target_iterations]
        apply numsOk_append
        · rw [apply_iteration_number]
        · by_cases ha : a = "traditional"
          · subst ha; rw [agentOf_trad]; exact ht
          · rw [agentOf_ne_trad bd a ha]; exact hr
      rw [hstep]
      by_cases ha : a = "traditional"
      · subst ha
        refine ⟨?_, ?_⟩
        · rw [← agentOf_trad]; exact htarget
        · rw [apply_other_ralph]; exact hr
      · refine ⟨?_, ?_⟩
        · rw [apply_other_trad task bd a content tok tms ts ha]; exact ht
        · rw [← agentOf_ne_trad _ a ha]; exact htarget

/-- The iteration-number invariant holds after any run from any state
satisfying it. -/
lemma runSteps_numsOk (task : Task) (steps : List StepCall) :
    ∀ bd : BattleData,
      numsOk bd.battle.traditional_agent.iterations →
      numsOk bd.battle.ralph_agent.iterations →
      numsOk (runSteps task bd steps).battle.traditional_agent.iterations ∧
        numsOk (runSteps task bd steps).battle.ralph_agent.iterations := by
  induction steps with
  | nil => intro bd ht hr; exact ⟨ht, hr⟩
  | cons s ss ih =>
      intro bd ht hr
      obtain ⟨ht1, hr1⟩ := iterStep_numsOk task bd s ht hr
      exact ih (iterStep task bd s) ht1 hr1

/-- A response meeting all three `rest-api` criteria (the words `endpoints`,
`status`, `validation`) and containing the code token `"def "`: evaluates to
`success`. -/
def successResponse : String := "def endpoints status validation"

/-- A response meeting no criterion and containing no code token: evaluates
to `failure`. -/
def failureResponse : String := "xyz"

def stepTradOk : StepCall := ⟨"traditional", .ok (successResponse, 10), 1, "t"⟩

def stepTradFail : StepCall := ⟨"traditional", .ok (failureResponse, 10), 1, "t"⟩

def stepRalphOk : StepCall := ⟨"ralph", .ok (successResponse, 10), 1, "t"⟩

/-- A freshly created battle on the `rest-api` task. -/
def demoBattle : BattleData := freshBattleData "b1" "rest-api"

/-- After a successful traditional iteration: traditional completed,
winner = traditional. -/
def demoAfter1 : BattleData := iterStep task_rest_api demoBattle stepTradOk

/-- After a further failing traditional iteration: the completed traditional
agent is reset to running. -/
def demoAfter2 : BattleData := iterStep task_rest_api demoAfter1 stepTradFail

/-- After a successful ralph iteration on top of that: the winner is
overwritten with ralph. -/
def demoAfter3 : BattleData := iterStep task_rest_api demoAfter2 stepRalphOk

/-- C1: for a known battle, a valid agent, a successful completion and a
successful persistence, the blocking `iterate_agent` does NOT return the
iteration payload: line 807 of server.py rebinds the name `response` (the
FastAPI `Response` parameter) to the completion dict, so the header-setting
statement of line 888 raises `AttributeError` — after the in-memory state
mutation (the iteration is recorded: the stored traditional agent has one
iteration) and after the database write.  The spec (and the repository's own
test suite, which expects HTTP 200 from this endpoint) describes the
intended behaviour; the code is a slip. -/
theorem c1_blocking_iterate_raises_after_mutation :
    (iterate_agent [("b1", demoBattle)] [task_rest_api] "b1" "traditional"
        (.ok (successResponse, 120)) (.ok ()) 5 "t0").2
      = .error .attributeError
    ∧ ((lookupBattle (iterate_agent [("b1", demoBattle)] [task_rest_api] "b1" "traditional"
        (.ok (successResponse, 120)) (.ok ()) 5 "t0").1 "b1").map
          (fun x => x.battle.traditional_agent.iterations.length)) = some 1 := by
  exact ⟨rfl, by decide⟩

/-- C2, counterexample: the claim "once battle.winner has been set to an
agent_type it is never changed to a different agent_type by any later
iterate call" is false.  Concretely: a successful traditional iteration sets
winner = traditional; a later failing traditional iteration demotes the
traditional agent back to running; a subsequent successful ralph iteration
then finds the other agent not completed and overwrites winner = ralph
(server.py lines 867-871 never check whether winner is already set). -/
theorem c2_winner_reassignment_cex :
    demoAfter1.battle.winner = some "traditional" ∧
      demoAfter3.battle.winner = some "ralph" := by decide

/-- C2, amended: an iterate call never clears a set winner (only `reset`
does), and the winner is stable under every sequence of iterate calls that
never targets an already-completed agent (in particular, whenever the
winning agent stays completed).  Reassignment is possible only by iterating
the completed winner again. -/
theorem c2_winner_stability_amended (task : Task) (bd : BattleData)
    (steps : List StepCall) (w : String)
    (hv : w = "traditional" ∨ w = "ralph")
    (hw : bd.battle.winner = some w)
    (hc : (agentOf bd w).status = "completed")
    (hs : noCompletedTarget task bd steps) :
    (runSteps task bd steps).battle.winner = some w
    ∧ (∀ (bd1 : BattleData) (s : StepCall), bd1.battle.winner ≠ none →
        (iterStep task bd1 s).battle.winner ≠ none)
    ∧ (reset_battle bd).battle.winner = none :=
  ⟨runSteps_winner_preserved task steps bd w hv hw hc hs,
   fun bd1 s h => iterStep_winner_ne_none task bd1 s h, rfl⟩

/-- C2, witness: after the traditional agent has won (`demoAfter1`),
a successful ralph iteration — which targets an agent that is not
completed — leaves the winner at traditional. -/
theorem c2_winner_stability_witness :
    (runSteps task_rest_api demoAfter1 [stepRalphOk]).battle.winner = some "traditional"
    ∧ (∀ (bd1 : BattleData) (s : StepCall), bd1.battle.winner ≠ none →
        (iterStep task_rest_api bd1 s).battle.winner ≠ none)
    ∧ (reset_battle demoAfter1).battle.winner = none :=
  c2_winner_stability_amended task_rest_api demoAfter1 [stepRalphOk] "traditional"
    (Or.inl rfl) (by decide) (by decide) ⟨by decide, trivial⟩

/-- C3, counterexample: `completed` is not terminal per agent.  After a
successful traditional iteration the traditional agent is completed; an
iterate call on that same agent whose response evaluates to failure sets its
status back to `running` (server.py line 839 unconditionally resets the
status to running before the evaluation branch). -/
theorem c3_completed_regression_cex :
    demoAfter1.battle.traditional_agent.status = "completed" ∧
      demoAfter2.battle.traditional_agent.status = "running" := by decide

/-- C3, amended: iterate calls targeting the other agent never touch a
completed agent's state; an iterate call on the agent itself leaves it in
status `completed` or `running` (never `idle` or `failed`), and in
`completed` whenever that iteration evaluates to success; only `reset`
returns an agent to `idle`.  `completed` is terminal only in runs that never
iterate an already-completed agent. -/
theorem c3_completed_terminal_amended (task : Task) (bd : BattleData) (c : String)
    (tok tms : Nat) (ts : String) :
    (∀ a, a ≠ "traditional" →
      (applyIteration task bd a c tok tms ts).bd.battle.traditional_agent
        = bd.battle.traditional_agent)
    ∧ ((applyIteration task bd "traditional" c tok tms ts).bd.battle.ralph_agent
        = bd.battle.ralph_agent)
    ∧ (∀ a, (agentOf (applyIteration task bd a c tok tms ts).bd a).status = "completed"
          ∨ (agentOf (applyIteration task bd a c tok tms ts).bd a).status = "running")
    ∧ (∀ a, evaluate_response c task = "success" →
          (agentOf (applyIteration task bd a c tok tms ts).bd a).status = "completed")
    ∧ (reset_battle bd).battle.traditional_agent.status = "idle"
    ∧ (reset_battle bd).battle.ralph_agent.status = "idle" := by
  refine ⟨fun a ha => apply_other_trad task bd a c tok tms ts ha,
          apply_other_ralph task bd c tok tms ts, fun a => ?_, fun a hs => ?_, rfl, rfl⟩
  · rw [apply_target_status]; split_ifs <;> simp
  · rw [apply_target_status, if_pos hs]

/-- C3, witness: a successful ralph iteration on `demoAfter1` leaves the
completed traditional agent untouched and completes the ralph agent. -/
theorem c3_completed_terminal_witness :
    (applyIteration task_rest_api demoAfter1 "ralph" successResponse 10 1 "t").bd.battle.traditional_agent
      = demoAfter1.battle.traditional_agent
    ∧ (agentOf (applyIteration task_rest_api demoAfter1 "ralph" successResponse 10 1 "t").bd "ralph").status
      = "completed" :=
  ⟨(c3_completed_terminal_amended task_rest_api demoAfter1 successResponse 10 1 "t").1
      "ralph" (by decide),
   (c3_completed_terminal_amended task_rest_api demoAfter1 successResponse 10 1 "t").2.2.2.1
      "ralph" (by decide)⟩

/-- C5: in every state reachable by any sequence of iterate calls from a
fresh battle, each agent's `success_count` equals exactly
`#success × 1 + #partial × 0.5`, as an exact rational — the fractional value
is never rounded (the handlers mutate the plain dict, so the pydantic `int`
annotation is never enforced during a battle). -/
theorem c5_success_count_exact (task : Task) (battle_id task_id : String)
    (steps : List StepCall) :
    fracOk (runSteps task (freshBattleData battle_id task_id) steps).battle.traditional_agent
    ∧ fracOk (runSteps task (freshBattleData battle_id task_id) steps).battle.ralph_agent := by
  apply runSteps_fracOk
  · simp [fracOk, freshBattleData, freshAgent, succCount, partCount]
  · simp [fracOk, freshBattleData, freshAgent, succCount, partCount]

/-- C6: a streaming iterate whose generation throws after `k` fragments
produces exactly the event sequence `start, chunk × k, error` — one error
event, no complete event — and leaves the in-memory battle state (hence the
agent's iteration list and counters) unchanged.  GenerateStream mutates
state only after the fragment loop finishes, so a generation throw reaches
the except-branch before any mutation (server.py lines 607-719). -/
theorem c6_stream_error_protocol (task : Task) (bd : BattleData) (agent_type : String)
    (chunks : List String) (msg : String) (persist : Except String Unit)
    (tms : Nat) (ts : String) :
    generate_stream task bd agent_type (.throws chunks msg) persist tms ts
      = (StreamEvent.start ((agentOf bd agent_type).iterations.length + 1) agent_type ::
          (chunks.map StreamEvent.chunk ++ [StreamEvent.error msg]), bd)
    ∧ ∀ it ast bs w, StreamEvent.complete it ast bs w ∉
        (generate_stream task bd agent_type (.throws chunks msg) persist tms ts).1 := by
  refine ⟨rfl, fun it ast bs w hmem => ?_⟩
  simp only [generate_stream, List.mem_cons, List.mem_append, List.mem_map,
    List.mem_singleton] at hmem
  rcases hmem with h | ⟨x, _, h⟩ | h | h
  · exact StreamEvent.noConfusion h
  · exact StreamEvent.noConfusion h
  · exact StreamEvent.noConfusion h
  · simp at h

/-- C9: starting from a fresh battle, after any sequence of iterate calls —
including interleaved upstream completion failures — each agent's recorded
iteration numbers are exactly the contiguous sequence `1..k` where `k` is
its list length; each successful call appends number `previous length + 1`
and a failed call records nothing and consumes no number. -/
theorem c9_iteration_numbers_contiguous (task : Task) (battle_id task_id : String)
    (steps : List StepCall) :
    (numsOk (runSteps task (freshBattleData battle_id task_id) steps).battle.traditional_agent.iterations
      ∧ numsOk (runSteps task (freshBattleData battle_id task_id) steps).battle.ralph_agent.iterations)
    ∧ (∀ (bd : BattleData) (a c : String) (tok tms : Nat) (ts : String),
        (applyIteration task bd a c tok tms ts).iteration.iteration_number
          = (agentOf bd a).iterations.length + 1)
    ∧ (∀ (bd : BattleData) (a e : String) (tms : Nat) (ts : String),
        iterStep task bd ⟨a, .error e, tms, ts⟩ = bd) := by
  refine ⟨?_, fun bd a c tok tms ts => apply_iteration_number task bd a c tok tms ts,
          fun bd a e tms ts => rfl⟩
  apply runSteps_numsOk
  · simp [numsOk, freshBattleData, freshAgent]
  · simp [numsOk, freshBattleData, freshAgent]

/-- C8: the recorded context_size is, for the traditional agent, the sum of
the lengths of all messages sent plus the response length, and, for the
ralph agent, the length of the single message sent (the ralph message list
always has exactly one entry) plus the response length; moreover the ralph
context size does not depend on how many prior iterations occurred — any two
states with the same ralph state file and at least one prior ralph iteration
yield the same context size for the same response
(server.py lines 817-820 / 629-632). -/
theorem c8_context_size (task : Task) (bd : BattleData) (content : String)
    (tok tms : Nat) (ts : String) :
    ((applyIteration task bd "traditional" content tok tms ts).iteration.context_size
      = ((buildMessages task bd "traditional").map (fun m => m.content.length)).sum
          + content.length)
    ∧ ((applyIteration task bd "ralph" content tok tms ts).iteration.context_size
      = ((buildMessages task bd "ralph").headD ⟨"", ""⟩).content.length + content.length)
    ∧ (buildMessages task bd "ralph").length = 1
    ∧ (∀ bd2 : BattleData, bd2.ralph_state_file = bd.ralph_state_file →
        bd.battle.ralph_agent.iterations ≠ [] → bd2.battle.ralph_agent.iterations ≠ [] →
        (applyIteration task bd2 "ralph" content tok tms ts).iteration.context_size
          = (applyIteration task bd "ralph" content tok tms ts).iteration.context_size) := by
  have hne : ("ralph" : String) ≠ "traditional" := by decide
  have hsingle : ∀ bd1 : BattleData, bd1.battle.ralph_agent.iterations ≠ [] →
      buildMessages task bd1 "ralph"
        = [⟨"user", ralphPrompt task.prompt_template bd1.ralph_state_file⟩] := by
    intro bd1 h1
    have hn1 : bd1.battle.ralph_agent.iterations.length + 1 ≠ 1 := by
      simpa [List.length_eq_zero] using h1
    simp [buildMessages, agentOf, hne, hn1]
  refine ⟨by simp [applyIteration], by simp [applyIteration, hne], ?_, ?_⟩
  · simp only [buildMessages, agentOf, if_neg hne]
    split_ifs <;> rfl
  · intro bd2 hsf h1 h2
    have c1 : (applyIteration task bd "ralph" content tok tms ts).iteration.context_size
        = (ralphPrompt task.prompt_template bd.ralph_state_file).length + content.length := by
      simp [applyIteration, hne, hsingle bd h1]
    have c2 : (applyIteration task bd2 "ralph" content tok tms ts).iteration.context_size
        = (ralphPrompt task.prompt_template bd2.ralph_state_file).length + content.length := by
      simp [applyIteration, hne, hsingle bd2 h2]
    rw [c1, c2, hsf]

/-- C8, witness: `demoAfter3` and the state obtained from it by one further
failing traditional iteration share the ralph state file and both have a
prior ralph iteration, and indeed yield the same ralph context size. -/
theorem c8_context_size_witness :
    (applyIteration task_rest_api (iterStep task_rest_api demoAfter3 stepTradFail)
        "ralph" successResponse 10 1 "t").iteration.context_size
      = (applyIteration task_rest_api demoAfter3
          "ralph" successResponse 10 1 "t").iteration.context_size :=
  (c8_context_size task_rest_api demoAfter3 successResponse 10 1 "t").2.2.2
    (iterStep task_rest_api demoAfter3 stepTradFail) (by decide) (by decide) (by decide)

lemma foldl_min_le_init (l : List Rat) (a : Rat) : l.foldl min a ≤ a := by
  induction l generalizing a with
  | nil => exact le_refl a
  | cons b t ih => exact le_trans (ih (min a b)) (min_le_left a b)

lemma foldl_min_le_mem (l : List Rat) (a x : Rat) (hx : x ∈ l) : l.foldl min a ≤ x := by
  induction l generalizing a with
  | nil => cases hx
  | cons b t ih =>
      rcases List.mem_cons.mp hx with h | h
      · subst h; exact le_trans (foldl_min_le_init t (min a x)) (min_le_right a x)
      · exact ih (min a b) h

lemma foldl_min_mem (l : List Rat) (a : Rat) : l.foldl min a = a ∨ l.foldl min a ∈ l := by
  induction l generalizing a with
  | nil => exact Or.inl rfl
  | cons b t ih =>
      rcases ih (min a b) with h | h
      · rcases le_total a b with hab | hab
        · left
          rw [List.foldl_cons, h, min_eq_left hab]
        · right
          rw [List.foldl_cons, h, min_eq_right hab]
          exact List.mem_cons_self b t
      · right; exact List.mem_cons_of_mem b h

/-- The reject branch of `check_rate_limit` in closed form. -/
lemma check_reject_eq (limit : Nat) (now : Rat) (bucket : List Rat)
    (h : (bucket.filter (fun t => now - 3600 < t)).length ≥ limit) :
    check_rate_limit true limit now bucket =
      ⟨false, 0,
        (match bucket.filter (fun t => now - 3600 < t) with
         | [] => (3600 : Int)
         | t :: ts => ⌊(3600 : Rat) - (now - ts.foldl min t)⌋),
        bucket.filter (fun t => now - 3600 < t)⟩ := by
  simp [check_rate_limit, h]

/-- The admit branch of `check_rate_limit` in closed form. -/
lemma check_admit_eq (limit : Nat) (now : Rat) (bucket : List Rat)
    (h : (bucket.filter (fun t => now - 3600 < t)).length < limit) :
    check_rate_limit true limit now bucket =
      ⟨true, limit - (bucket.filter (fun t => now - 3600 < t)).length - 1, 3600,
        bucket.filter (fun t => now - 3600 < t) ++ [now]⟩ := by
  simp [check_rate_limit, Nat.not_le.mpr h]

/-- The admit branch of `rate_limit_dependency` in closed form: the
admission timestamp is recorded and the headers are returned. -/
lemma dependency_admit_eq (limit : Nat) (now : Rat) (bucket : List Rat)
    (h : (bucket.filter (fun t => now - 3600 < t)).length < limit) :
    rate_limit_dependency true limit now bucket
      = (bucket.filter (fun t => now - 3600 < t) ++ [now],
         .ok ⟨limit, limit - (bucket.filter (fun t => now - 3600 < t)).length - 1,
              ⌊now⌋ + 3600⟩) := by
  simp [rate_limit_dependency, check_admit_eq limit now bucket h]

/-- C4, counterexample: the claim says the rejection carries
`retry_after = ceil(3600 − (now − oldest))`; the code computes
`int(3600 - (current_time - oldest_request))`, which truncates.  With
`now = 1/2` and one timestamp `0` in the bucket (capacity 1), the code
returns 3599 while the ceiling is 3600. -/
theorem c4_retry_after_truncation_cex :
    (check_rate_limit true 1 (1 / 2 : Rat) [0]).reset_time = 3599
    ∧ (check_rate_limit true 1 (1 / 2 : Rat) [0]).reset_time
        ≠ ⌈(3600 : Rat) - ((1 / 2 : Rat) - 0)⌉ := by
  have hlt : ((1 : Rat) / 2 - 3600 < 0) := by norm_num
  have hfilter : List.filter (fun t => (1 / 2 : Rat) - 3600 < t) [0] = [0] := by
    simp only [List.filter_cons, List.filter_nil, decide_eq_true_eq]
    rw [if_pos hlt]
  have hge : (List.filter (fun t => (1 / 2 : Rat) - 3600 < t) [0]).length ≥ 1 := by
    rw [hfilter]; decide
  have h1 : (check_rate_limit true 1 (1 / 2 : Rat) [0]).reset_time = 3599 := by
    rw [check_reject_eq 1 (1 / 2) [0] hge]
    simp only [hfilter]
    show (⌊(3600 : Rat) - (1 / 2 - List.foldl min 0 [])⌋ : Int) = 3599
    rw [List.foldl_nil,
      show ((3600 : Rat) - (1 / 2 - 0)) = 7199 / 2 by norm_num,
      Int.floor_eq_iff]
    constructor <;> norm_num
  have hceil : (⌈(3600 : Rat) - ((1 / 2 : Rat) - 0)⌉ : Int) = 3600 := by
    rw [show ((3600 : Rat) - ((1 / 2 : Rat) - 0)) = 7199 / 2 by norm_num,
      Int.ceil_eq_iff]
    constructor <;> norm_num
  refine ⟨h1, ?_⟩
  rw [h1, hceil]
  decide

/-- C4, amended: `check(client)` purges the timestamps not strictly inside
the last 3600 s window; if the remaining count is at least the capacity it
rejects with `remaining = 0` and
`retry_after = FLOOR(3600 − (now − oldest_remaining_timestamp))` — Python
`int()` truncation, not the ceiling the claim states — which is at most 3600
whenever the bucket only holds past timestamps; otherwise it records `now`
and admits with `remaining = N − count − 1`, window `reset_time = 3600`, and
reset header `⌊now⌋ + 3600`. -/
theorem c4_rate_limit_amended (limit : Nat) (now : Rat) (bucket : List Rat)
    (hpos : 0 < limit) :
    ((bucket.filter (fun t => now - 3600 < t)).length ≥ limit →
      ∃ oldest : Rat,
        oldest ∈ bucket.filter (fun t => now - 3600 < t)
        ∧ (∀ t ∈ bucket.filter (fun t => now - 3600 < t), oldest ≤ t)
        ∧ check_rate_limit true limit now bucket
            = ⟨false, 0, ⌊(3600 : Rat) - (now - oldest)⌋,
               bucket.filter (fun t => now - 3600 < t)⟩
        ∧ ((∀ t ∈ bucket, t ≤ now) → ⌊(3600 : Rat) - (now - oldest)⌋ ≤ 3600))
    ∧ ((bucket.filter (fun t => now - 3600 < t)).length < limit →
      check_rate_limit true limit now bucket
        = ⟨true, limit - (bucket.filter (fun t => now - 3600 < t)).length - 1, 3600,
           bucket.filter (fun t => now - 3600 < t) ++ [now]⟩
      ∧ rate_limit_dependency true limit now bucket
        = (bucket.filter (fun t => now - 3600 < t) ++ [now],
           .ok ⟨limit, limit - (bucket.filter (fun t => now - 3600 < t)).length - 1,
                ⌊now⌋ + 3600⟩)) := by
  constructor
  · intro h
    have hnil : bucket.filter (fun t => now - 3600 < t) ≠ [] := by
      intro h0
      rw [h0] at h
      simp at h
      omega
    obtain ⟨t, ts, hk⟩ := List.exists_cons_of_ne_nil hnil
    refine ⟨ts.foldl min t, ?_, ?_, ?_, ?_⟩
    · rw [hk]
      rcases foldl_min_mem ts t with he | he
      · rw [he]; exact List.mem_cons_self t ts
      · exact List.mem_cons_of_mem t he
    · intro x hx
      rw [hk] at hx
      rcases List.mem_cons.mp hx with h1 | h1
      · rw [h1]; exact foldl_min_le_init ts t
      · exact foldl_min_le_mem ts t x h1
    · rw [check_reject_eq limit now bucket h, hk]
    · intro hbound
      have hmem : ts.foldl min t ∈ bucket := by
        apply List.mem_of_mem_filter (p := fun t => decide (now - 3600 < t))
        rw [hk]
        rcases foldl_min_mem ts t with he | he
        · rw [he]; exact List.mem_cons_self t ts
        · exact List.mem_cons_of_mem t he
      have h1 : ts.foldl min t ≤ now := hbound _ hmem
      have h2 : (3600 : Rat) - (now - ts.foldl min t) ≤ 3600 := by linarith
      calc ⌊(3600 : Rat) - (now - ts.foldl min t)⌋
          ≤ ⌊(3600 : Rat)⌋ := Int.floor_le_floor h2
        _ = 3600 := by norm_num
  · intro h
    exact ⟨check_admit_eq limit now bucket h, dependency_admit_eq limit now bucket h⟩

/-- C4, witness: with capacity 1, one admitted timestamp 0 in the bucket and
`now = 1`, the next call is rejected with `remaining = 0`, the minimum of
the kept bucket as oldest timestamp, and a retry value of at most 3600. -/
theorem c4_rate_limit_witness :
    ∃ oldest : Rat,
      oldest ∈ List.filter (fun t => (1 : Rat) - 3600 < t) [0]
      ∧ (∀ t ∈ List.filter (fun t => (1 : Rat) - 3600 < t) [0], oldest ≤ t)
      ∧ check_rate_limit true 1 1 [0]
          = ⟨false, 0, ⌊(3600 : Rat) - (1 - oldest)⌋,
             List.filter (fun t => (1 : Rat) - 3600 < t) [0]⟩
      ∧ ((∀ t ∈ [(0 : Rat)], t ≤ 1) → ⌊(3600 : Rat) - (1 - oldest)⌋ ≤ 3600) :=
  (c4_rate_limit_amended 1 1 [0] (by norm_num)).1 (by
    have hlt : ((1 : Rat) - 3600 < 0) := by norm_num
    simp [List.filter_cons, hlt])

/-- `k/10 ≤ m/n` over the rationals is the cleared-denominator comparison
`k * n ≤ 10 * m` over the naturals. -/
lemma div_ge_tenths_iff (k m n : Nat) (hn : 0 < n) :
    ((k : Rat) / 10 ≤ (m : Rat) / (n : Rat)) ↔ k * n ≤ 10 * m := by
  have hn' : (0 : Rat) < (n : Rat) := by exact_mod_cast hn
  rw [div_le_div_iff₀ (by norm_num) hn']
  constructor
  · intro h
    have h2 : ((k * n : Nat) : Rat) ≤ ((10 * m : Nat) : Rat) := by push_cast; linarith
    exact_mod_cast h2
  · intro h
    have h2 : ((k * n : Nat) : Rat) ≤ ((10 * m : Nat) : Rat) := by exact_mod_cast h
    push_cast at h2
    linarith

/-- The evaluator unfolded on its three branches. -/
lemma evaluate_response_eq (response : String) (task : Task) :
    evaluate_response response task =
      (if 10 * met_count response task ≥ 7 * task.acceptance_criteria.length
          ∧ has_code_flag response = true then "success"
       else if 10 * met_count response task ≥ 4 * task.acceptance_criteria.length
          ∧ has_code_flag response = true then "partial"
       else "failure") := rfl

/-- C7: with `met_fraction = met_count / criteria_count`, the evaluator
classifies `success` iff `met_fraction ≥ 0.7` and code is present,
`partial` iff `0.4 ≤ met_fraction < 0.7` and code is present, and
`failure` otherwise; in particular 1 of 3 criteria met with code present is
a failure. -/
theorem c7_evaluator_classification (response : String) (task : Task)
    (hn : 0 < task.acceptance_criteria.length) :
    (evaluate_response response task = "success" ↔
      ((0.7 : Rat) ≤ (met_count response task : Rat) / (task.acceptance_criteria.length : Rat)
        ∧ has_code_flag response = true))
    ∧ (evaluate_response response task = "partial" ↔
      ((0.4 : Rat) ≤ (met_count response task : Rat) / (task.acceptance_criteria.length : Rat)
        ∧ (met_count response task : Rat) / (task.acceptance_criteria.length : Rat) < (0.7 : Rat)
        ∧ has_code_flag response = true))
    ∧ (evaluate_response response task = "failure" ↔
      (has_code_flag response = false
        ∨ (met_count response task : Rat) / (task.acceptance_criteria.length : Rat) < (0.4 : Rat)))
    ∧ (task.acceptance_criteria.length = 3 → met_count response task = 1 →
        has_code_flag response = true → evaluate_response response task = "failure") := by
  rw [evaluate_response_eq]
  set m := met_count response task with hm_def
  set n := task.acceptance_criteria.length with hn_def
  have h07 : ((0.7 : Rat) ≤ (m : Rat) / (n : Rat)) ↔ 7 * n ≤ 10 * m := by
    rw [show (0.7 : Rat) = 7 / 10 by norm_num]
    exact div_ge_tenths_iff 7 m n hn
  have h04 : ((0.4 : Rat) ≤ (m : Rat) / (n : Rat)) ↔ 4 * n ≤ 10 * m := by
    rw [show (0.4 : Rat) = 4 / 10 by norm_num]
    exact div_ge_tenths_iff 4 m n hn
  have h07l : ((m : Rat) / (n : Rat) < (0.7 : Rat)) ↔ 10 * m < 7 * n := by
    rw [← not_le, h07]
    omega
  have h04l : ((m : Rat) / (n : Rat) < (0.4 : Rat)) ↔ 10 * m < 4 * n := by
    rw [← not_le, h04]
    omega
  split_ifs with h1 h2
  · obtain ⟨h1a, h1b⟩ := h1
    refine ⟨⟨fun _ => ⟨h07.mpr h1a, h1b⟩, fun _ => rfl⟩, ?_, ?_, ?_⟩
    · refine iff_of_false (by decide) (fun h => ?_)
      obtain ⟨_, hlt, _⟩ := h
      rw [h07l] at hlt
      omega
    · refine iff_of_false (by decide) (fun h => ?_)
      rcases h with h | h
      · rw [h1b] at h; exact Bool.noConfusion h
      · rw [h04l] at h; omega
    · intro h3 hm1 _
      exfalso
      rw [h3, hm1] at h1a
      omega
  · have h1n : ¬ 10 * m ≥ 7 * n := fun hx => h1 ⟨hx, h2.2⟩
    obtain ⟨h2a, h2b⟩ := h2
    refine ⟨?_, ?_, ?_, ?_⟩
    · refine iff_of_false (by decide) (fun h => ?_)
      exact h1n (h07.mp h.1)
    · exact iff_of_true rfl ⟨h04.mpr h2a, by rw [h07l]; omega, h2b⟩
    · refine iff_of_false (by decide) (fun h => ?_)
      rcases h with h | h
      · rw [h2b] at h; exact Bool.noConfusion h
      · rw [h04l] at h; omega
    · intro h3 hm1 _
      exfalso
      rw [h3, hm1] at h2a
      omega
  · refine ⟨?_, ?_, ?_, fun _ _ _ => rfl⟩
    · refine iff_of_false (by decide) (fun h => ?_)
      exact h1 ⟨h07.mp h.1, h.2⟩
    · refine iff_of_false (by decide) (fun h => ?_)
      exact h2 ⟨h04.mp h.1, h.2.2⟩
    · refine iff_of_true rfl ?_
      by_cases hcode : has_code_flag response = true
      · right
        rw [h04l]
        have h2n : ¬ 10 * m ≥ 4 * n := fun hx => h2 ⟨hx, hcode⟩
        omega
      · left
        simpa using hcode

/-- C7, witness: the spec's scenario — a response with a fenced block
matching only one of the three `rest-api` criteria (the word `proper`) —
is classified `failure` despite code being present. -/
theorem c7_evaluator_witness :
    0 < task_rest_api.acceptance_criteria.length
    ∧ evaluate_response "```\napp.post proper\n```" task_rest_api = "failure" :=
  ⟨by decide,
   (c7_evaluator_classification "```\napp.post proper\n```" task_rest_api (by decide)).2.2.2
     (by decide) (by decide) (by decide)⟩

/-- C10: on both guarded iterate endpoints, FastAPI evaluates
`rate_limit_dependency` before the handler body runs, and an admitted call
has its timestamp appended to the client's bucket at that moment
(server.py lines 140-143).  Consequently a call that is admitted and then
fails validation — unknown battle (404) or invalid agent (400) — still
consumes one rate-limit slot even though no iteration occurs. -/
theorem c10_rate_slot_consumed_before_validation (limit : Nat) (now : Rat)
    (bucket : List Rat) (store : List (String × BattleData)) (tasks : List Task)
    (battle_id agent_type : String) (completion : Except String (String × Nat))
    (run : StreamRun) (persist : Except String Unit) (tms : Nat) (ts : String)
    (hcount : (bucket.filter (fun t => now - 3600 < t)).length < limit) :
    ((iterate_endpoint true limit now bucket store tasks battle_id agent_type completion
        persist tms ts).1 = bucket.filter (fun t => now - 3600 < t) ++ [now]
      ∧ (iterate_stream_endpoint true limit now bucket store tasks battle_id agent_type run
          persist tms ts).1 = bucket.filter (fun t => now - 3600 < t) ++ [now])
    ∧ (lookupBattle store battle_id = none →
        (iterate_endpoint true limit now bucket store tasks battle_id agent_type completion
            persist tms ts).2.2 = .error .notFound
        ∧ (iterate_stream_endpoint true limit now bucket store tasks battle_id agent_type run
            persist tms ts).2.2 = .error .notFound)
    ∧ (agent_type ∉ (["traditional", "ralph"] : List String) →
        ∀ bd, lookupBattle store battle_id = some bd →
          (iterate_endpoint true limit now bucket store tasks battle_id agent_type completion
              persist tms ts).2.2 = .error .invalidAgent
          ∧ (iterate_stream_endpoint true limit now bucket store tasks battle_id agent_type run
              persist tms ts).2.2 = .error .invalidAgent) := by
  have hdep := dependency_admit_eq limit now bucket hcount
  refine ⟨⟨?_, ?_⟩, fun hmiss => ⟨?_, ?_⟩, fun hbad bd hfound => ⟨?_, ?_⟩⟩
  · simp [iterate_endpoint, hdep]
  · simp [iterate_stream_endpoint, hdep]
  · simp [iterate_endpoint, hdep, iterate_agent, hmiss]
  · simp [iterate_stream_endpoint, hdep, iterate_agent_stream, hmiss]
  · simp [iterate_endpoint, hdep, iterate_agent, hfound, hbad]
  · simp [iterate_stream_endpoint, hdep, iterate_agent_stream, hfound, hbad]

/-- C10, witness: with an empty bucket (admitted) and an unknown battle id,
the blocking endpoint answers NotFound and the bucket nevertheless holds the
admission timestamp. -/
theorem c10_rate_slot_witness :
    (iterate_endpoint true 10 1 [] [("b1", demoBattle)] [task_rest_api] "nope" "traditional"
        (.ok (successResponse, 1)) (.ok ()) 1 "t").1 = [(1 : Rat)]
    ∧ (iterate_endpoint true 10 1 [] [("b1", demoBattle)] [task_rest_api] "nope" "traditional"
        (.ok (successResponse, 1)) (.ok ()) 1 "t").2.2 = .error .notFound := by
  have h := c10_rate_slot_consumed_before_validation 10 1 [] [("b1", demoBattle)]
    [task_rest_api] "nope" "traditional" (.ok (successResponse, 1)) (.finishes [])
    (.ok ()) 1 "t" (by decide)
  exact ⟨by rw [h.1.1]; rfl, (h.2.1 (by decide)).1⟩

end RalphArena
